import Mathlib

/-!
Shallow embedding of the per-function data-dependence analysis implemented in
`Lab3_Plugin.py` and `Lab4_networkx.py` (CS6747 Lab 3 Ghidra plugin), together
with theorems settling the specification claims.

Modelling conventions:
* Ghidra objects are reduced to the fields the scripts read: an instruction is
  a mnemonic plus a list of operand descriptors; an operand carries the result
  of `getRegister`, the `RefType` flags that are queried, the token list of
  `getDefaultOperandRepresentationList`, and the text of
  `getDefaultOperandRepresentation`.
* Python dictionaries become functions into `Option` or association lists;
  mutation becomes explicit state passing.
* Suffix `L3` marks the `Lab3_Plugin.py` variant of a function, `L4` the
  `Lab4_networkx.py` variant, where the two files differ.
-/

/-- A token of an operand representation list
(`getDefaultOperandRepresentationList`): either a plain text element
(separator character, scalar, ...) or a `Register` object. -/
inductive Token where
  | strTok (s : String)
  | regTok (r : String)
deriving DecidableEq, Repr

/-- `str(element)` applied to a representation-list element. -/
def Token.toStr : Token → String
  | .strTok s => s
  | .regTok r => r

/-- `element == c` for a separator string `c`: a `Register` object never
compares equal to a string. -/
def Token.eqStr : Token → String → Bool
  | .strTok s, c => s == c
  | .regTok _, _ => false

/-- `isinstance(element, Register)`. -/
def Token.isReg : Token → Bool
  | .strTok _ => false
  | .regTok _ => true

/-- The queried flags of `instruction.getOperandRefType(i)`. -/
structure RefType where
  isRead : Bool
  isWrite : Bool
  isConditional : Bool
  isFlow : Bool
deriving DecidableEq, Repr

/-- One operand as the scripts observe it. `register` is the result of
`instruction.getRegister(i)` (`none` models Java `null`). -/
structure Operand where
  register : Option String
  refType : RefType
  repList : List Token
  representation : String
deriving DecidableEq, Repr

/-- One instruction as the scripts observe it. -/
structure Instruction where
  mnemonic : String
  operands : List Operand
deriving DecidableEq, Repr

/-- The `if x not in l: l.append(x)` idiom used throughout both scripts. -/
def addNew (l : List String) (x : String) : List String :=
  if x ∈ l then l else l ++ [x]

/-- The pair of accumulator lists `defs`, `uses` threaded through
`operandRegisterHelper` and `analyze_instruction`. -/
structure DU where
  defs : List String
  uses : List String
deriving DecidableEq, Repr

/-- The local variables of the memory-reference scanning loop inside
`operandRegisterHelper` (the `else` branch for a non-register operand). -/
structure MemScan where
  thisDynamic : String
  isPart : Bool
  isInstance : Bool
  isRead : Bool
  isWrite : Bool
  eor : Bool
  du : DU
deriving Repr

/-- One iteration of `for element in refListing` in `Lab3_Plugin.py`'s
`operandRegisterHelper`.  The statements are executed in source order; in the
Lab3 variant a register element of a written operand is appended to `defs`. -/
def memStepL3 (rt : RefType) (st : MemScan) (element : Token) : MemScan :=
  let st := if st.isPart then { st with thisDynamic := st.thisDynamic ++ element.toStr } else st
  let st := if element.eqStr "[" then { st with isPart := true, thisDynamic := st.thisDynamic ++ "[" } else st
  let st := if element.eqStr "]" then { st with isPart := false, eor := true } else st
  let st :=
    if element.isReg then
      let st := { st with isInstance := true }
      let st := if rt.isRead then { st with isRead := true, du := { st.du with uses := addNew st.du.uses element.toStr } } else st
      let st := if rt.isWrite then { st with isWrite := true, du := { st.du with defs := addNew st.du.defs element.toStr } } else st
      st
    else st
  if st.isInstance && st.eor then
    let st := if !(st.thisDynamic ∈ st.du.uses) && st.isRead then { st with du := { st.du with uses := st.du.uses ++ [st.thisDynamic] } } else st
    let st := if !(st.thisDynamic ∈ st.du.defs) && st.isWrite then { st with du := { st.du with defs := st.du.defs ++ [st.thisDynamic] } } else st
    st
  else st

/-- One iteration of `for element in refListing` in `Lab4_networkx.py`'s
`operandRegisterHelper`. Only difference from Lab3: a register element of a
written operand is appended to `uses` (lines 114-117), not to `defs`. -/
def memStepL4 (rt : RefType) (st : MemScan) (element : Token) : MemScan :=
  let st := if st.isPart then { st with thisDynamic := st.thisDynamic ++ element.toStr } else st
  let st := if element.eqStr "[" then { st with isPart := true, thisDynamic := st.thisDynamic ++ "[" } else st
  let st := if element.eqStr "]" then { st with isPart := false, eor := true } else st
  let st :=
    if element.isReg then
      let st := { st with isInstance := true }
      let st := if rt.isRead then { st with isRead := true, du := { st.du with uses := addNew st.du.uses element.toStr } } else st
      let st := if rt.isWrite then { st with isWrite := true, du := { st.du with uses := addNew st.du.uses element.toStr } } else st
      st
    else st
  if st.isInstance && st.eor then
    let st := if !(st.thisDynamic ∈ st.du.uses) && st.isRead then { st with du := { st.du with uses := st.du.uses ++ [st.thisDynamic] } } else st
    let st := if !(st.thisDynamic ∈ st.du.defs) && st.isWrite then { st with du := { st.du with defs := st.du.defs ++ [st.thisDynamic] } } else st
    st
  else st

/-- Initial local state of the memory-reference scan. -/
def MemScan.init (du : DU) : MemScan :=
  { thisDynamic := "", isPart := false, isInstance := false, isRead := false,
    isWrite := false, eor := false, du := du }

/-- The whole memory-reference branch for one operand, Lab3 variant. -/
def memScanL3 (rt : RefType) (du : DU) (toks : List Token) : DU :=
  (toks.foldl (memStepL3 rt) (MemScan.init du)).du

/-- The whole memory-reference branch for one operand, Lab4 variant. -/
def memScanL4 (rt : RefType) (du : DU) (toks : List Token) : DU :=
  (toks.foldl (memStepL4 rt) (MemScan.init du)).du

/-- Processing of one operand inside `operandRegisterHelper`, Lab3 variant:
the register branch (shared by both files) or the memory-reference branch. -/
def operandStepL3 (du : DU) (o : Operand) : DU :=
  match o.register with
  | some r =>
      let du := if o.refType.isConditional && o.refType.isFlow then { du with uses := addNew du.uses "eflags" } else du
      let du := if o.refType.isRead then { du with uses := addNew du.uses r } else du
      let du := if o.refType.isWrite then { du with defs := addNew du.defs r } else du
      du
  | none => memScanL3 o.refType du o.repList

/-- Processing of one operand inside `operandRegisterHelper`, Lab4 variant. -/
def operandStepL4 (du : DU) (o : Operand) : DU :=
  match o.register with
  | some r =>
      let du := if o.refType.isConditional && o.refType.isFlow then { du with uses := addNew du.uses "eflags" } else du
      let du := if o.refType.isRead then { du with uses := addNew du.uses r } else du
      let du := if o.refType.isWrite then { du with defs := addNew du.defs r } else du
      du
  | none => memScanL4 o.refType du o.repList

/-- `operandRegisterHelper` of `Lab3_Plugin.py`: the loop over all operands. -/
def operandRegisterHelperL3 (instr : Instruction) (du : DU) : DU :=
  instr.operands.foldl operandStepL3 du

/-- `operandRegisterHelper` of `Lab4_networkx.py`. -/
def operandRegisterHelperL4 (instr : Instruction) (du : DU) : DU :=
  instr.operands.foldl operandStepL4 du

/-- Character class of the regex `[0-9a-fx]` with `re.IGNORECASE`. -/
def isHexClassChar (c : Char) : Bool :=
  ('0' ≤ c && c ≤ '9') || ('a' ≤ c && c ≤ 'f') || ('A' ≤ c && c ≤ 'F') || c = 'x' || c = 'X'

/-- Leftmost match of `re.search(r'\[([0-9a-fx]+)\]', s, re.IGNORECASE)`,
returning group 1: a `[`, then a non-empty maximal run of class characters
(the class excludes `]`, so greedy matching needs no backtracking), then `]`. -/
def bracketHexAux : List Char → Option (List Char)
  | [] => none
  | c :: rest =>
      if c = '[' then
        let run := rest.takeWhile isHexClassChar
        if !run.isEmpty && (rest.drop run.length).head? = some ']' then some run
        else bracketHexAux rest
      else bracketHexAux rest

/-- String version of `bracketHexAux`, as used by the CALL branch. -/
def findBracketHex (s : String) : Option String :=
  (bracketHexAux s.data).map fun l => String.mk l

/-- Leftmost match of `re.search(r'\[(.*?)\]', s)`, returning group 1: the
text between the first `[` and the first following `]`. -/
def firstBracketAux : List Char → Option (List Char)
  | [] => none
  | c :: rest =>
      if c = '[' then
        if ']' ∈ rest then some (rest.takeWhile (· ≠ ']'))
        else firstBracketAux rest
      else firstBracketAux rest

/-- String version of `firstBracketAux`, as used by the LEA branch. -/
def firstBracketContents (s : String) : Option String :=
  (firstBracketAux s.data).map fun l => String.mk l

/-- A regex word character (`\w`), deciding `\b` boundaries. -/
def isWordChar (c : Char) : Bool := c.isAlpha || c.isDigit || c = '_'

/-- An ASCII letter, the class `[a-zA-Z]`. -/
def isAlphaClassChar (c : Char) : Bool :=
  ('a' ≤ c && c ≤ 'z') || ('A' ≤ c && c ≤ 'Z')

/-- `re.findall(r'\b([a-zA-Z]+)\b', s)`: all maximal letter runs whose
neighbours on both sides are non-word characters (or the string ends).
`prevIsWord` records whether the character before the current position is a
word character. -/
def alphaRunsAux (prevIsWord : Bool) : List Char → List String
  | [] => []
  | c :: rest =>
      if isAlphaClassChar c && !prevIsWord then
        let run := c :: rest.takeWhile isAlphaClassChar
        let rest' := rest.drop (rest.takeWhile isAlphaClassChar).length
        if (rest'.head?.map isWordChar).getD false then
          alphaRunsAux true rest'
        else
          String.mk run :: alphaRunsAux true rest'
      else
        alphaRunsAux (isWordChar c) rest
  termination_by l => l.length
  decreasing_by
    all_goals simp [List.length_drop]
    all_goals omega

/-- String version of `alphaRunsAux`. -/
def alphaRuns (s : String) : List String := alphaRunsAux false s.data

/-- Python `set()` of the found register names.  Jython set iteration order is
modelled as first-occurrence order; no settled claim depends on this order. -/
def dedupFirst (l : List String) : List String := l.foldl addNew []

/-- Code-point lexicographic comparison of character lists, the order Python
uses to compare strings (`<=` elementwise on code points). -/
def charListLe : List Char → List Char → Bool
  | [], _ => true
  | _ :: _, [] => false
  | c :: cs, d :: ds =>
      if c.toNat < d.toNat then true
      else if d.toNat < c.toNat then false
      else charListLe cs ds

/-- Python string `<=`. -/
def pyStrLe (a b : String) : Bool := charListLe a.data b.data

/-- Stable insertion of a string into an already sorted list: the new element
goes after all existing elements that are `<=` it, matching the stability of
Python's `sorted`. -/
def insertSorted (x : String) : List String → List String
  | [] => [x]
  | y :: ys => if pyStrLe y x then y :: insertSorted x ys else x :: y :: ys

/-- Python `sorted` on strings (lexicographic, stable). -/
def sortStr (l : List String) : List String :=
  l.foldl (fun acc x => insertSorted x acc) []

/-- The label `"D: {} U: {}".format(", ".join(sorted(defs)), ", ".join(sorted(uses)))`. -/
def defUseLabel (du : DU) : String :=
  "D: " ++ String.intercalate ", " (sortStr du.defs) ++ " U: " ++ String.intercalate ", " (sortStr du.uses)

/-- The list of conditional-jump mnemonics tested by `analyze_instruction`. -/
def condJumps : List String := ["JA", "JZ", "JBE", "JC", "JG", "JL", "JLE", "JNC", "JNZ"]

/-- The mnemonic dispatch chain of `analyze_instruction` in `Lab3_Plugin.py`,
applied after `operandRegisterHelper` has produced `du`.  `none` models the
bare `return` (Python `None`) of the final `else` for an unrecognized
mnemonic. -/
def analyzeCoreL3 (instr : Instruction) (du : DU) : Option DU :=
  let mnemonic := instr.mnemonic
  if mnemonic == "CALL" then
    let callTargetRepresentation := ((instr.operands.head?).map (·.representation)).getD ""
    let callTarget :=
      match findBracketHex callTargetRepresentation with
      | some g => "[" ++ g ++ "]"
      | none => callTargetRepresentation
    some { du with uses := du.uses ++ [callTarget] }
  else if mnemonic == "ADD" || mnemonic == "SUB" then
    some { du with defs := addNew du.defs "eflags" }
  else if mnemonic == "AND" || mnemonic == "OR" || mnemonic == "XOR" then
    some { du with defs := addNew du.defs "eflags" }
  else if mnemonic == "CMP" then
    some { du with defs := addNew du.defs "eflags" }
  else if mnemonic == "IMUL" || mnemonic == "MUL" then
    some { du with defs := addNew du.defs "eflags" }
  else if mnemonic == "INC" || mnemonic == "DEC" then
    some { du with defs := addNew du.defs "eflags" }
  else if mnemonic ∈ condJumps then
    some { du with uses := addNew du.uses "eflags" }
  else if mnemonic == "JMP" then
    some du
  else if mnemonic == "LEA" then
    let du :=
      match (instr.operands.head?).bind (·.register) with
      | some destReg => if destReg ∈ du.defs then du else { du with defs := du.defs ++ [destReg] }
      | none => du
    let sourceOperand := ((instr.operands.get? 1).map (·.representation)).getD ""
    -- the source calls `.group(1)` on the match object, raising
    -- AttributeError when the operand has no bracketed part; LEA source
    -- operands always have one, so the `.getD ""` default is unreachable
    let inside := (firstBracketContents sourceOperand).getD ""
    let foundRegisters := dedupFirst (alphaRuns inside)
    some { du with uses := foundRegisters.foldl addNew du.uses }
  else if mnemonic == "LEAVE" then
    some { du with defs := du.defs ++ ["EBP", "ESP"], uses := du.uses ++ ["EBP", "[EBP]"] }
  else if mnemonic == "MOV" then some du
  else if mnemonic == "MOVSX" then some du
  else if mnemonic == "MOVZX" then some du
  else if mnemonic == "POP" then
    some { du with defs := addNew du.defs "ESP",
                   uses := addNew (addNew du.uses "[ESP]") "ESP" }
  else if mnemonic == "PUSH" then
    some { du with defs := addNew (addNew du.defs "ESP") "[ESP]",
                   uses := addNew du.uses "ESP" }
  else if mnemonic == "RET" then
    some { du with uses := addNew (addNew du.uses "ESP") "[ESP]",
                   defs := addNew du.defs "ESP" }
  else if mnemonic == "SAR" || mnemonic == "SAL" then
    some { du with defs := addNew du.defs "eflags" }
  else if mnemonic == "SETNZ" then
    some { du with uses := addNew du.uses "eflags" }
  else if mnemonic == "SHR" || mnemonic == "SHL" then
    some { du with defs := addNew du.defs "eflags" }
  else if mnemonic == "STOSD.REP" then
    some { defs := ["[EDI]", "EDI"], uses := du.uses ++ ["EAX", "EDI", "eflags"] }
  else if mnemonic == "TEST" then
    some { du with defs := addNew du.defs "eflags" }
  else none

/-- The mnemonic dispatch chain of `analyze_instruction` in
`Lab4_networkx.py`.  Only difference from Lab3: the RET branch adds `ESP` to
uses and defs but not `[ESP]` (lines 202-206). -/
def analyzeCoreL4 (instr : Instruction) (du : DU) : Option DU :=
  let mnemonic := instr.mnemonic
  if mnemonic == "CALL" then
    let callTargetRepresentation := ((instr.operands.head?).map (·.representation)).getD ""
    let callTarget :=
      match findBracketHex callTargetRepresentation with
      | some g => "[" ++ g ++ "]"
      | none => callTargetRepresentation
    some { du with uses := du.uses ++ [callTarget] }
  else if mnemonic == "ADD" || mnemonic == "SUB" then
    some { du with defs := addNew du.defs "eflags" }
  else if mnemonic == "AND" || mnemonic == "OR" || mnemonic == "XOR" then
    some { du with defs := addNew du.defs "eflags" }
  else if mnemonic == "CMP" then
    some { du with defs := addNew du.defs "eflags" }
  else if mnemonic == "IMUL" || mnemonic == "MUL" then
    some { du with defs := addNew du.defs "eflags" }
  else if mnemonic == "INC" || mnemonic == "DEC" then
    some { du with defs := addNew du.defs "eflags" }
  else if mnemonic ∈ condJumps then
    some { du with uses := addNew du.uses "eflags" }
  else if mnemonic == "JMP" then
    some du
  else if mnemonic == "LEA" then
    let du :=
      match (instr.operands.head?).bind (·.register) with
      | some destReg => if destReg ∈ du.defs then du else { du with defs := du.defs ++ [destReg] }
      | none => du
    let sourceOperand := ((instr.operands.get? 1).map (·.representation)).getD ""
    let inside := (firstBracketContents sourceOperand).getD ""
    let foundRegisters := dedupFirst (alphaRuns inside)
    some { du with uses := foundRegisters.foldl addNew du.uses }
  else if mnemonic == "LEAVE" then
    some { du with defs := du.defs ++ ["EBP", "ESP"], uses := du.uses ++ ["EBP", "[EBP]"] }
  else if mnemonic == "MOV" then some du
  else if mnemonic == "MOVSX" then some du
  else if mnemonic == "MOVZX" then some du
  else if mnemonic == "POP" then
    some { du with defs := addNew du.defs "ESP",
                   uses := addNew (addNew du.uses "[ESP]") "ESP" }
  else if mnemonic == "PUSH" then
    some { du with defs := addNew (addNew du.defs "ESP") "[ESP]",
                   uses := addNew du.uses "ESP" }
  else if mnemonic == "RET" then
    some { du with uses := addNew du.uses "ESP",
                   defs := addNew du.defs "ESP" }
  else if mnemonic == "SAR" || mnemonic == "SAL" then
    some { du with defs := addNew du.defs "eflags" }
  else if mnemonic == "SETNZ" then
    some { du with uses := addNew du.uses "eflags" }
  else if mnemonic == "SHR" || mnemonic == "SHL" then
    some { du with defs := addNew du.defs "eflags" }
  else if mnemonic == "STOSD.REP" then
    some { defs := ["[EDI]", "EDI"], uses := du.uses ++ ["EAX", "EDI", "eflags"] }
  else if mnemonic == "TEST" then
    some { du with defs := addNew du.defs "eflags" }
  else none

/-- `analyze_instruction` of `Lab3_Plugin.py`: the helper, the dispatch
chain, and the `(def_use_label, defs, uses)` triple returned on success;
`none` is the bare `return` for an unrecognized mnemonic. -/
def analyze_instruction_L3 (instr : Instruction) : Option (String × List String × List String) :=
  (analyzeCoreL3 instr (operandRegisterHelperL3 instr ⟨[], []⟩)).map
    fun du => (defUseLabel du, du.defs, du.uses)

/-- `analyze_instruction` of `Lab4_networkx.py`: same shape; the source
returns only the label but stores `defs`/`uses` in `instruction_def_use`,
which the triple carries here. -/
def analyze_instruction_L4 (instr : Instruction) : Option (String × List String × List String) :=
  (analyzeCoreL4 instr (operandRegisterHelperL4 instr ⟨[], []⟩)).map
    fun du => (defUseLabel du, du.defs, du.uses)

/-- The `defs` dictionary of a `DDStorage` object: a map from storage
location (register, `eflags`, or bracketed memory key) to the address of its
most recent definer. -/
abbrev Storage := String → Option String

/-- A fresh `DDStorage` (`self.defs = {}`). -/
def Storage.empty : Storage := fun _ => none

/-- `DDStorage.newDefine`: `self.defs[register] = address`. -/
def Storage.newDefine (s : Storage) (register address : String) : Storage :=
  fun x => if x = register then some address else s x

/-- The `for i in uses` loop of `DDStorage.processDataDep`: `self.has(i)` /
`self.getAddress(i)` become one match on the underlying map. -/
def resolveUses (s : Storage) (uses : List String) : List String :=
  uses.foldl
    (fun dependsOn i =>
      match s i with
      | some a => dependsOn ++ [a]
      | none => if "START" ∈ dependsOn then dependsOn else dependsOn ++ ["START"])
    []

/-- `DDStorage.processDataDep` (identical in both files): resolve every use
against the current state, then record every def at `addr`; returns the
dependency list together with the updated storage. -/
def processDataDep (s : Storage) (uses defs : List String) (addr : String) :
    List String × Storage :=
  (resolveUses s uses, defs.foldl (fun st i => Storage.newDefine st i addr) s)

/-- The per-instruction slice of `collect_instructions` in `Lab3_Plugin.py`
that feeds the dependency map: unpack the result of `analyze_instruction`
(raising `TypeError` when it returns `None`), call `processDataDep`, and
record `dependsOn[addr_str]`.  The fold carries the shared `DDStorage` and
the accumulated address-to-dependency association list. -/
def lab3_collect (prog : List (String × Instruction)) :
    Except String (List (String × List String)) :=
  (prog.foldlM
    (fun (st : Storage × List (String × List String)) (p : String × Instruction) =>
      match analyze_instruction_L3 p.2 with
      | some (_, defs, uses) =>
          let r := processDataDep st.1 uses defs p.1
          Except.ok (r.2, st.2 ++ [(p.1, r.1)])
      | none => Except.error "TypeError")
    (Storage.empty, [])).map
    (fun (r : Storage × List (String × List String)) => r.2)

/-- An element of an enumerated path in `Lab4_networkx.py`: the prepended
`"START"` sentinel or an instruction with the full text of
`instr.getAddress().toString()`. -/
inductive PathElem where
  | start
  | ins (addrFull : String) (i : Instruction)
deriving DecidableEq, Repr

/-- The entry stored per key in `all_dependencies`:
`{'def': defs, 'use': uses, 'DD': dependencies}`. -/
structure DepEntry where
  defL : List String
  useL : List String
  DD : List String
deriving DecidableEq, Repr

/-- Association-list lookup, modelling `key in dict` / `dict[key]`. -/
def lookupA {α β : Type} [DecidableEq α] (l : List (α × β)) (k : α) : Option β :=
  match l with
  | [] => none
  | (k', v) :: rest => if k = k' then some v else lookupA rest k

/-- Association-list update in place (a Python dict update keeps the key's
insertion position); appends when the key is new. -/
def updateA {α β : Type} [DecidableEq α] (l : List (α × β)) (k : α) (v : β) :
    List (α × β) :=
  match l with
  | [] => [(k, v)]
  | (k', v') :: rest => if k = k' then (k, v) :: rest else (k', v') :: updateA rest k v

/-- The body of the `for instr_index, instr in enumerate(path)` loop of
`compute_data_dependencies`: skip `START`; fall back to empty defs/uses for
instructions missing from `instruction_def_use`; discard the dependency list
of a RET (without calling `processDataDep`, so the storage is untouched);
union repeated keys.  `list(set(a + b))` is modelled as first-occurrence
deduplication of the concatenation; no settled claim depends on the Jython
set iteration order. -/
def computeStep (idu : Instruction → Option (List String × List String))
    (st : Storage × List ((String × Instruction) × DepEntry)) (e : PathElem) :
    Storage × List ((String × Instruction) × DepEntry) :=
  match e with
  | .start => st
  | .ins instr_address instr =>
      let du := (idu instr).getD ([], [])
      let r :=
        if instr.mnemonic == "RET" then ([], st.1)
        else processDataDep st.1 du.2 du.1 instr_address
      let key := (instr_address, instr)
      let entry :=
        match lookupA st.2 key with
        | some old => { defL := du.1, useL := du.2, DD := dedupFirst (old.DD ++ r.1) }
        | none => { defL := du.1, useL := du.2, DD := r.1 }
      (r.2, updateA st.2 key entry)

/-- `compute_data_dependencies` of `Lab4_networkx.py`: one fresh `DDStorage`
per path, shared `all_dependencies` across paths. -/
def compute_data_dependencies (all_paths : List (List PathElem))
    (idu : Instruction → Option (List String × List String)) :
    List ((String × Instruction) × DepEntry) :=
  all_paths.foldl
    (fun all_dependencies path =>
      (path.foldl (computeStep idu) (Storage.empty, all_dependencies)).2)
    []

/-- The `instruction_def_use` dictionary of `Lab4_networkx.py` as populated
by `analyze_instruction`: present exactly for recognized mnemonics. -/
def iduL4 (i : Instruction) : Option (List String × List String) :=
  (analyze_instruction_L4 i).map fun t => (t.2.1, t.2.2)

/-- `visited[block] = visited.get(block, 0) + 1` on a visit-count map. -/
def bump (v : Nat → Nat) (b : Nat) : Nat → Nat :=
  fun x => if x = b then v x + 1 else v x

/-- The inner `traverse` of `reverse_traverse_cfg` in `Lab3_Plugin.py`
(lines 497-533).  Blocks are numbered; `preds b` is the list of source blocks
of `b` (`block.getSources`); `visited.copy()` is implicit in the functional
map.  The recursive call at line 529 omits the `loop_limit` argument, so
every recursive invocation runs with the default limit `1`; the literal `1`
below mirrors that.  `fuel` only bounds the recursion depth for
well-foundedness; all theorems hold for every fuel or use an ample one. -/
def traverse (fuel : Nat) (preds : Nat → List Nat) (block : Nat) (visited : Nat → Nat)
    (path : List Nat) (paths : List (List Nat)) (entry : Nat) (loop_limit : Nat) :
    List (List Nat) :=
  match fuel with
  | 0 => paths
  | fuel + 1 =>
      if visited block == loop_limit then paths
      else
        let visited := bump visited block
        let new_path := block :: path
        if block == entry then paths ++ [new_path]
        else
          let srcs := preds block
          if srcs.isEmpty then paths ++ [new_path]
          else srcs.foldl (fun ps s => traverse fuel preds s visited new_path ps entry 1) paths

/-- The path-enumeration slice of `reverse_traverse_cfg` in `Lab3_Plugin.py`:
a single zero-initialized `visited` dict is created before the loop over
`ret_blocks` and each `traverse` call mutates it only at its root block
(children receive copies), which the fold reproduces. -/
def reverse_traverse_cfg (fuel : Nat) (preds : Nat → List Nat) (entry : Nat)
    (ret_blocks : List Nat) : List (List Nat) :=
  (ret_blocks.foldl
    (fun (st : (Nat → Nat) × List (List Nat)) rb =>
      let paths := traverse fuel preds rb st.1 [] st.2 entry 1
      let visited := if st.1 rb == 1 then st.1 else bump st.1 rb
      (visited, paths))
    (fun _ => 0, [])).2

/-- Python `"...".lstrip('0')`. -/
def lstrip0 (s : String) : String := String.mk (s.data.dropWhile (· = '0'))

/-- The per-dependency rendering of `create_dot_graph_DD`:
`'0x' + x if x != "START" else x`. -/
def ddRender (x : String) : String := if x == "START" then x else "0x" ++ x

/-- One node declaration line of `create_dot_graph_DD`
(`'    {} [label = "{}"];\n'`), with the `DD:` label when the address has a
dependency entry. -/
def lab3NodeLine (counter : Nat) (addr : String) (deps : Option (List String)) : String :=
  let addr_label := "0x" ++ addr
  let label :=
    match deps with
    | some l => addr_label ++ "; DD: " ++ String.intercalate ", " (l.map ddRender)
    | none => addr_label ++ ";"
  "    n" ++ toString counter ++ " [label = \"" ++ label ++ "\"];\n"

/-- The accumulating state of the node loop of `create_dot_graph_DD`:
the text built so far, the `address_to_node` map, and `node_counter`. -/
structure L3EmitState where
  text : String
  addrToNode : List (String × String)
  counter : Nat

/-- One iteration of the node loop of `create_dot_graph_DD`: the first
iteration also inserts the `n0`/`START` node. -/
def lab3NodeStep (deps : String → Option (List String)) (st : L3EmitState)
    (addr : String) : L3EmitState :=
  let st :=
    if st.addrToNode.isEmpty then
      { st with text := st.text ++ "    n0 [label = \"START\"];\n",
                addrToNode := st.addrToNode ++ [("START", "n0")] }
    else st
  { text := st.text ++ lab3NodeLine st.counter addr (deps addr),
    addrToNode := st.addrToNode ++ [(addr, "n" ++ toString st.counter)],
    counter := st.counter + 1 }

/-- The whole node loop of `create_dot_graph_DD`. -/
def lab3NodesLoop (lst : List String) (deps : String → Option (List String)) :
    L3EmitState :=
  lst.foldl (lab3NodeStep deps) { text := "", addrToNode := [], counter := 1 }

/-- `sort_key` of `create_dot_graph_DD`: `re.search(r'n(\d+)', item)`,
`none` modelling the `float('inf')` fallback. -/
def sortKeyAux : List Char → Option Nat
  | [] => none
  | c :: rest =>
      if c = 'n' then
        let digs := rest.takeWhile Char.isDigit
        if digs.isEmpty then sortKeyAux rest
        else some (digs.foldl (fun v d => v * 10 + (d.toNat - 48)) 0)
      else sortKeyAux rest

/-- String version of `sortKeyAux`. -/
def sortKeyFn (item : String) : Option Nat := sortKeyAux item.data

/-- Comparison of sort keys, `none` playing `float('inf')`. -/
def keyLe : Option Nat → Option Nat → Bool
  | _, none => true
  | none, some _ => false
  | some a, some b => a ≤ b

/-- Stable insertion for `sortByLe`: the new element goes after all existing
elements that compare `≤` to it. -/
def insertByLe {α : Type} (le : α → α → Bool) (x : α) : List α → List α
  | [] => [x]
  | y :: ys => if le y x then y :: insertByLe le x ys else x :: y :: ys

/-- Python `sorted` with a key: stable, modelled by repeated stable
insertion. -/
def sortByLe {α : Type} (le : α → α → Bool) (l : List α) : List α :=
  l.foldl (fun acc x => insertByLe le x acc) []

/-- The edge-collection loop of `create_dot_graph_DD`: one `'nI -> nJ'`
string per dependency of every non-START node, in `address_to_node` order.
The source indexes `dependsOn[addr]` and `address_to_node[thisDependent]`
directly (a `KeyError` when absent); the `.getD` defaults are unreachable for
pipeline-produced inputs. -/
def lab3EdgesList (addrToNode : List (String × String))
    (deps : String → Option (List String)) : List String :=
  addrToNode.foldl
    (fun allDep (p : String × String) =>
      if p.1 == "START" then allDep
      else
        allDep ++ ((deps p.1).getD []).map
          (fun thisDependent =>
            if thisDependent == "START" then p.2 ++ " -> n0"
            else p.2 ++ " -> " ++ ((lookupA addrToNode thisDependent).getD "")))
    []

/-- `create_dot_graph_DD` of `Lab3_Plugin.py`, taking the entry-point text
(`func.getEntryPoint().toString()`), the sorted instruction list and the
`dependsOn` map. -/
def create_dot_graph_DD (entryPoint : String) (instruction_list : List String)
    (dependsOn : String → Option (List String)) : String :=
  let entry_point := "0x" ++ lstrip0 entryPoint
  let header := "digraph \"" ++ entry_point ++ "\" \x7b\n"
  let nodes := lab3NodesLoop instruction_list dependsOn
  let allDep := sortByLe (fun a b => keyLe (sortKeyFn a) (sortKeyFn b))
    (lab3EdgesList nodes.addrToNode dependsOn)
  header ++ nodes.text ++ "\n" ++
    String.join (allDep.map (fun i => "    " ++ i ++ ";\n")) ++ "\x7d"

/-- `int(x, 16)` digit value; the source raises on a non-hex character, so
the 0 default is unreachable for address text. -/
def hexDigitVal (c : Char) : Nat :=
  if c.isDigit then c.toNat - 48
  else if 'a' ≤ c && c ≤ 'f' then c.toNat - 87
  else if 'A' ≤ c && c ≤ 'F' then c.toNat - 55
  else 0

/-- `int(s, 16)` for hexadecimal address text. -/
def hexVal (s : String) : Nat := s.data.foldl (fun v c => v * 16 + hexDigitVal c) 0

/-- The per-dependency rendering of `generate_DD_dot_graph`:
`'0x{}'.format(addr.lstrip('0')) if addr != 'START' else 'START'`. -/
def lab4DDLabelItem (a : String) : String :=
  if a == "START" then "START" else "0x" ++ lstrip0 a

/-- The node text which `generate_DD_dot_graph` emits for one instruction
address: one line per matching `all_dependencies` key (association-list order
models the dict iteration order), or the bare `DD:` line when no key
matches. -/
def lab4NodeText (node_counter : Nat) (instr_address : String)
    (all_deps : List ((String × Instruction) × DepEntry)) : String :=
  let matched := all_deps.filter (fun kv => kv.1.1 == instr_address)
  let node_name := "n" ++ toString node_counter
  let formatted_address := lstrip0 instr_address
  if matched.isEmpty then
    "    " ++ node_name ++ "  [label = \"0x" ++ formatted_address ++ "; DD:\"];\n"
  else
    String.join (matched.map (fun kv =>
      "    " ++ node_name ++ "  [label = \"0x" ++ formatted_address ++ "; DD: " ++
        String.intercalate ", " (kv.2.DD.map lab4DDLabelItem) ++ "\"];\n"))

/-- The accumulating state of the node loop of `generate_DD_dot_graph`. -/
structure L4EmitState where
  text : String
  addrToNode : List (String × String)
  counter : Nat
  edges : List (String × String)

/-- One iteration of the node loop of `generate_DD_dot_graph`: emit the node
text, extend `address_to_node`, collect `(dep_address, instr_address)` edge
pairs (the loop's `dep_node` local is dead there and omitted). -/
def lab4NodeStep (all_deps : List ((String × Instruction) × DepEntry))
    (st : L4EmitState) (instr_address : String) : L4EmitState :=
  let matched := all_deps.filter (fun kv => kv.1.1 == instr_address)
  { text := st.text ++ lab4NodeText st.counter instr_address all_deps,
    addrToNode := st.addrToNode ++ [(instr_address, "n" ++ toString st.counter)],
    counter := st.counter + 1,
    edges := st.edges ++ matched.foldl
      (fun es kv => es ++ kv.2.DD.map (fun dep => (dep, instr_address))) [] }

/-- `generate_DD_dot_graph` of `Lab4_networkx.py`: header with `START` node,
`"00"`-prefixed addresses, node loop, then edges sorted by the source
address parsed as hexadecimal. -/
def generate_DD_dot_graph (entryPoint : String) (instruction_list : List String)
    (all_deps : List ((String × Instruction) × DepEntry)) : String :=
  let entry_point := lstrip0 entryPoint
  let header := "digraph 0x" ++ entry_point ++ " \x7b\n" ++ "    n0  [label = \"START\"];\n"
  let lst00 := instruction_list.map (fun instr => "00" ++ instr)
  let stN := lst00.foldl (lab4NodeStep all_deps)
    { text := "", addrToNode := [("START", "n0")], counter := 1, edges := [] }
  let sortedEdges := sortByLe (fun a b => hexVal a.2 ≤ hexVal b.2) stN.edges
  let edgeText := String.join (sortedEdges.map (fun e =>
    let dep_node := (lookupA stN.addrToNode e.1).getD "n0"
    let src_node := (lookupA stN.addrToNode e.2).getD ""
    "    " ++ src_node ++ " -> " ++ dep_node ++ ";\n"))
  header ++ stN.text ++ "\n" ++ edgeText ++ "\x7d\n"

/-- A plain register operand as Ghidra reports it (`getRegister` non-null). -/
def regOperand (r : String) (rd wr : Bool) : Operand :=
  { register := some r,
    refType := { isRead := rd, isWrite := wr, isConditional := false, isFlow := false },
    repList := [Token.regTok r], representation := r }

/-- An immediate (scalar) operand: `getRegister` is null and the
representation list holds a single scalar token. -/
def immOperand (txt : String) : Operand :=
  { register := none,
    refType := { isRead := true, isWrite := false, isConditional := false, isFlow := false },
    repList := [Token.strTok txt], representation := txt }

/-- A register-indexed memory operand `[r]`: `getRegister` is null and the
representation list is `[`, the register, `]`. -/
def memOperand (r : String) (rd wr : Bool) : Operand :=
  { register := none,
    refType := { isRead := rd, isWrite := wr, isConditional := false, isFlow := false },
    repList := [Token.strTok "[", Token.regTok r, Token.strTok "]"],
    representation := "[" ++ r ++ "]" }

/-- `MOV r, imm`. -/
def movRegImm (r imm : String) : Instruction :=
  { mnemonic := "MOV", operands := [regOperand r false true, immOperand imm] }

/-- `MOV [r], imm`: a write-only register-indexed destination. -/
def movMemImm (r imm : String) : Instruction :=
  { mnemonic := "MOV", operands := [memOperand r false true, immOperand imm] }

/-- `PUSH r`. -/
def pushReg (r : String) : Instruction :=
  { mnemonic := "PUSH", operands := [regOperand r true false] }

/-- `POP r`. -/
def popReg (r : String) : Instruction :=
  { mnemonic := "POP", operands := [regOperand r false true] }

/-- `ADD d, s`. -/
def addRegReg (d s : String) : Instruction :=
  { mnemonic := "ADD", operands := [regOperand d true true, regOperand s true false] }

/-- A bare `RET`. -/
def retInstr : Instruction := { mnemonic := "RET", operands := [] }

/-- An instruction whose mnemonic is outside the recognized set. -/
def nopInstr : Instruction := { mnemonic := "NOP", operands := [] }

/-- The six-instruction straight-line example from the module docstring of
`Lab3_Plugin.py` (and §8 of the spec), with addresses 1..6. -/
def ex4prog : List (String × Instruction) :=
  [("1", movRegImm "EAX" "0x1"),
   ("2", movRegImm "ECX" "0x2"),
   ("3", pushReg "ECX"),
   ("4", pushReg "EAX"),
   ("5", popReg "ECX"),
   ("6", popReg "EAX")]

section ResolveLemmas

variable (s : Storage)

/-- The loop body of the `for i in uses` loop of `processDataDep`. -/
def resolveStep (dependsOn : List String) (i : String) : List String :=
  match s i with
  | some a => dependsOn ++ [a]
  | none => if "START" ∈ dependsOn then dependsOn else dependsOn ++ ["START"]

theorem resolveUses_eq_foldl (uses : List String) :
    resolveUses s uses = uses.foldl (resolveStep s) [] := rfl

theorem resolveStep_mem_mono {x : String} {acc : List String} (i : String)
    (h : x ∈ acc) : x ∈ resolveStep s acc i := by
  unfold resolveStep
  cases s i with
  | some a => exact List.mem_append_left _ h
  | none =>
      by_cases hm : "START" ∈ acc
      · simpa [hm] using h
      · simp only [hm, if_neg, ite_false]
        exact List.mem_append_left _ h

theorem resolveFold_mem_mono {x : String} (uses : List String) :
    ∀ acc, x ∈ acc → x ∈ uses.foldl (resolveStep s) acc := by
  induction uses with
  | nil => intro acc h; simpa using h
  | cons u rest ih =>
      intro acc h
      exact ih _ (resolveStep_mem_mono s u h)

theorem resolveFold_hit {u d : String} (uses : List String)
    (hu : u ∈ uses) (hd : s u = some d) :
    ∀ acc, d ∈ uses.foldl (resolveStep s) acc := by
  induction uses with
  | nil => cases hu
  | cons u' rest ih =>
      intro acc
      rcases List.mem_cons.mp hu with h | h
      · subst h
        rw [List.foldl_cons]
        apply resolveFold_mem_mono
        unfold resolveStep
        rw [hd]
        exact List.mem_append_right _ (List.mem_singleton.mpr rfl)
      · exact ih h _

theorem resolveFold_miss {u : String} (uses : List String)
    (hu : u ∈ uses) (hd : s u = none) :
    ∀ acc, "START" ∈ uses.foldl (resolveStep s) acc := by
  induction uses with
  | nil => cases hu
  | cons u' rest ih =>
      intro acc
      rcases List.mem_cons.mp hu with h | h
      · subst h
        rw [List.foldl_cons]
        apply resolveFold_mem_mono
        unfold resolveStep
        rw [hd]
        by_cases hm : "START" ∈ acc
        · simp [hm]
        · simp only [hm, ite_false]
          exact List.mem_append_right _ (List.mem_singleton.mpr rfl)
      · exact ih h _

theorem resolveFold_count (hS : ∀ u, s u ≠ some "START") (uses : List String) :
    ∀ acc, acc.count "START" ≤ 1 → (uses.foldl (resolveStep s) acc).count "START" ≤ 1 := by
  induction uses with
  | nil => intro acc h; simpa using h
  | cons u rest ih =>
      intro acc h
      apply ih
      unfold resolveStep
      cases hsu : s u with
      | some a =>
          have ha : a ≠ "START" := fun hEq => hS u (hEq ▸ hsu)
          rw [List.count_append]
          have : List.count "START" [a] = 0 := by
            simp [List.count_singleton', Ne.symm ha]
          omega
      | none =>
          by_cases hm : "START" ∈ acc
          · simpa [hm] using h
          · have h0 : acc.count "START" = 0 := List.count_eq_zero.mpr hm
            simp only [hm, ite_false]
            rw [List.count_append]
            simp [h0]

theorem resolveFold_src {x : String} (uses : List String) :
    ∀ acc, x ∈ uses.foldl (resolveStep s) acc →
      x ∈ acc ∨ x = "START" ∨ ∃ u ∈ uses, s u = some x := by
  induction uses with
  | nil => intro acc h; exact Or.inl (by simpa using h)
  | cons u rest ih =>
      intro acc h
      rcases ih _ h with hstep | h' | ⟨u', hu', hsu'⟩
      · unfold resolveStep at hstep
        cases hsu : s u with
        | some a =>
            rw [hsu] at hstep
            rcases List.mem_append.mp hstep with hacc | hx
            · exact Or.inl hacc
            · refine Or.inr (Or.inr ⟨u, List.mem_cons_self u rest, ?_⟩)
              rw [hsu, List.mem_singleton.mp hx]
        | none =>
            rw [hsu] at hstep
            by_cases hm : "START" ∈ acc
            · rw [if_pos hm] at hstep
              exact Or.inl hstep
            · rw [if_neg hm] at hstep
              rcases List.mem_append.mp hstep with hacc | hx
              · exact Or.inl hacc
              · exact Or.inr (Or.inl (List.mem_singleton.mp hx))
      · exact Or.inr (Or.inl h')
      · exact Or.inr (Or.inr ⟨u', List.mem_cons_of_mem u hu', hsu'⟩)

theorem newDefine_foldl (defs : List String) (addr : String) :
    ∀ (st : Storage) (l : String),
      (defs.foldl (fun st i => Storage.newDefine st i addr) st) l =
        if l ∈ defs then some addr else st l := by
  induction defs with
  | nil => intro st l; simp
  | cons d rest ih =>
      intro st l
      rw [List.foldl_cons, ih]
      by_cases hr : l ∈ rest
      · simp [hr, List.mem_cons]
      · by_cases hd : l = d
        · simp [hr, hd, Storage.newDefine]
        · simp [hr, hd, Storage.newDefine, List.mem_cons]

end ResolveLemmas

/-- C1: `processDataDep(uses, defs, address)` resolves every used location
against the state as it was before the call — appending the recorded
definer's address on a hit and `START` on a miss, with `START` appended at
most once per call — and only afterwards overwrites the state entry of every
defined location with `address`, so every non-`START` element of the result
is a definer recorded before the call: the current instruction's definitions
never satisfy its own uses.  (The hypothesis rules out a location mapped to
the literal sentinel text, which no pipeline state contains.) -/
theorem processDataDep_resolve_spec (s : Storage) (uses defs : List String) (addr : String)
    (hS : ∀ u, s u ≠ some "START") :
    (∀ u ∈ uses, ∀ d, s u = some d → d ∈ (processDataDep s uses defs addr).1) ∧
    (∀ u ∈ uses, s u = none → "START" ∈ (processDataDep s uses defs addr).1) ∧
    (processDataDep s uses defs addr).1.count "START" ≤ 1 ∧
    (∀ x ∈ (processDataDep s uses defs addr).1, x = "START" ∨ ∃ u ∈ uses, s u = some x) ∧
    (∀ l, (processDataDep s uses defs addr).2 l = if l ∈ defs then some addr else s l) := by
  refine ⟨?_, ?_, ?_, ?_, ?_⟩
  · intro u hu d hd
    exact resolveFold_hit s uses hu hd []
  · intro u hu hd
    exact resolveFold_miss s uses hu hd []
  · exact resolveFold_count s hS uses [] (by simp)
  · intro x hx
    rcases resolveFold_src s uses [] hx with h | h | h
    · cases h
    · exact Or.inl h
    · exact Or.inr h
  · intro l
    exact newDefine_foldl defs addr s l

/-- A one-entry tracker state used by the witness below. -/
def s1w : Storage := Storage.newDefine Storage.empty "EAX" "1"

/-- Witness for `processDataDep_resolve_spec` at a concrete state and
instruction: the defined use `EAX` resolves to its definer and the undefined
use `EBX` contributes `START`. -/
theorem processDataDep_resolve_spec_witness :
    "1" ∈ (processDataDep s1w ["EAX", "EBX"] ["ECX"] "7").1 ∧
    "START" ∈ (processDataDep s1w ["EAX", "EBX"] ["ECX"] "7").1 := by
  have hS : ∀ u, s1w u ≠ some "START" := by
    intro u
    unfold s1w Storage.newDefine Storage.empty
    by_cases h : u = "EAX" <;> simp [h]
  exact ⟨(processDataDep_resolve_spec s1w ["EAX", "EBX"] ["ECX"] "7" hS).1 "EAX" (by simp) "1" rfl,
         (processDataDep_resolve_spec s1w ["EAX", "EBX"] ["ECX"] "7" hS).2.1 "EBX" (by simp) rfl⟩

/-- C9: after `processDataDep(uses, defs, addr)` every location outside
`defs` still maps to exactly what it mapped to before the call (including
staying undefined), and every location in `defs` maps to `addr`. -/
theorem processDataDep_frame (s : Storage) (uses defs : List String) (addr : String) :
    (∀ l, l ∉ defs → (processDataDep s uses defs addr).2 l = s l) ∧
    (∀ l ∈ defs, (processDataDep s uses defs addr).2 l = some addr) := by
  constructor
  · intro l hl
    rw [show (processDataDep s uses defs addr).2 l = _ from newDefine_foldl defs addr s l]
    simp [hl]
  · intro l hl
    rw [show (processDataDep s uses defs addr).2 l = _ from newDefine_foldl defs addr s l]
    simp [hl]

/-- Witness for `processDataDep_frame`: a location outside the defs keeps its
(undefined) entry and the defined `ESP` maps to the new address. -/
theorem processDataDep_frame_witness :
    (processDataDep Storage.empty ["EAX"] ["ESP"] "7").2 "EAX" = Storage.empty "EAX" ∧
    (processDataDep Storage.empty ["EAX"] ["ESP"] "7").2 "ESP" = some "7" :=
  ⟨(processDataDep_frame Storage.empty ["EAX"] ["ESP"] "7").1 "EAX" (by decide),
   (processDataDep_frame Storage.empty ["EAX"] ["ESP"] "7").2 "ESP" (by decide)⟩

/-- The tracker state after a PUSH at address 3 has defined both `ESP` and
`[ESP]`, as used by the duplicate-dependency example. -/
def s10 : Storage :=
  Storage.newDefine (Storage.newDefine Storage.empty "ESP" "3") "[ESP]" "3"

/-- C10: a POP-shaped call whose two distinct used locations `[ESP]` and
`ESP` were both last defined at address 3 returns that definer's address
twice — only the `START` sentinel is deduplicated within a call, definer
addresses are not (last conjunct shows the `START` dedup on two misses). -/
theorem duplicate_definer_addresses :
    (processDataDep s10 ["[ESP]", "ESP"] ["ECX", "ESP"] "5").1 = ["3", "3"] ∧
    (processDataDep s10 ["[ESP]", "ESP"] ["ECX", "ESP"] "5").1.count "3" = 2 ∧
    "[ESP]" ≠ "ESP" ∧
    (processDataDep Storage.empty ["EAX", "EBX"] [] "9").1 = ["START"] :=
  ⟨rfl, rfl, by decide, rfl⟩

/-- Python `str` applied to the value of `def_use_info[addr]`, which is
`None` for an unrecognized mnemonic. -/
def pyStrOfOpt : Option String → String
  | some s => s
  | none => "None"

/-- One node declaration line of `create_dot_graph` (the def/use CFG emitter,
identical in both files): an address present in `def_use_info` is labelled
with its stored value (even when that value is `None`), an absent one with
the bare address. -/
def cfgNodeLine (counter : Nat) (addr : String) (info : Option (Option String)) : String :=
  match info with
  | some v =>
      "    n" ++ toString counter ++ " [label = \"0x" ++ addr ++ "; " ++ pyStrOfOpt v ++ "\"];\n"
  | none => "    n" ++ toString counter ++ " [label = \"0x" ++ addr ++ ";\"];\n"

/-- C2: an instruction with an unrecognized mnemonic makes
`analyze_instruction` return `None` in both files; `Lab4_networkx.py`
degrades silently (no `instruction_def_use` entry, empty defs/uses and empty
dependency list in `compute_data_dependencies`, node still emitted), but
`Lab3_Plugin.py`'s `collect_instructions` unpacks the `None` into three
variables and raises `TypeError`, aborting the analysis. -/
theorem unrecognized_mnemonic_crashes_lab3 :
    analyze_instruction_L3 nopInstr = none ∧
    lab3_collect [("10", nopInstr)] = Except.error "TypeError" ∧
    analyze_instruction_L4 nopInstr = none ∧
    iduL4 nopInstr = none ∧
    compute_data_dependencies [[PathElem.start, PathElem.ins "0040100a" nopInstr]] iduL4 =
      [(("0040100a", nopInstr), { defL := [], useL := [], DD := [] })] ∧
    lab4NodeText 1 "0040100a"
        (compute_data_dependencies [[PathElem.start, PathElem.ins "0040100a" nopInstr]] iduL4) =
      "    n1  [label = \"0x40100a; DD: \"];\n" ∧
    cfgNodeLine 1 "10" (some none) = "    n1 [label = \"0x10; None\"];\n" :=
  ⟨rfl, rfl, rfl, rfl, rfl, rfl, rfl⟩

/-- The predecessor map of a three-block CFG `entry → loop`, `loop → loop`
(self loop), `loop → ret`: blocks 0 = entry, 1 = loop body, 2 = return. -/
def preds3 : Nat → List Nat :=
  fun b => if b = 2 then [1] else if b = 1 then [0, 1] else []

/-- C3: the path enumeration of `reverse_traverse_cfg` runs with loop limit
1 — the recursive call omits the `loop_limit` argument, so the default `1`
always applies — hence on the self-loop CFG `preds3` the only enumerated
path visits the loop block exactly once: no path represents the loop body
for two iterations, contradicting the claimed unroll bound N ≥ 2. -/
theorem loop_unroll_limit_is_one :
    reverse_traverse_cfg 10 preds3 0 [2] = [[0, 1, 2]] ∧
    ([0, 1, 2] : List Nat).count 1 = 1 :=
  ⟨rfl, rfl⟩

/-- C4: on the module-docstring example `MOV EAX,1; MOV ECX,2; PUSH ECX;
PUSH EAX; POP ECX; POP EAX` (addresses 1..6) the pipeline computes for
address 6 the dependency list `["4", "5"]` — `[ESP]` resolves to the most
recent `PUSH` at address 4, not to the PUSH at address 3 that the docstring
and the spec require — so address 6's set is `{4, 5}`, not the claimed
`{5, 3}` (addresses 3, 4, 5 match the claim, address 6 does not). -/
theorem push_pop_example_dependencies :
    lab3_collect ex4prog = Except.ok
      [("1", []), ("2", []), ("3", ["2", "START"]), ("4", ["1", "3"]),
       ("5", ["4", "4"]), ("6", ["4", "5"])] ∧
    "3" ∉ (["4", "5"] : List String) ∧
    "4" ∈ (["4", "5"] : List String) ∧
    ("4" : String) ≠ "5" ∧ ("4" : String) ≠ "3" :=
  ⟨rfl, by decide, by decide, by decide, by decide⟩

theorem addNew_self_mem (l : List String) (x : String) : x ∈ addNew l x := by
  unfold addNew
  split
  · assumption
  · exact List.mem_append_right _ (List.mem_singleton.mpr rfl)

theorem addNew_mem_mono {x : String} {l : List String} (y : String) (h : x ∈ l) :
    x ∈ addNew l y := by
  unfold addNew
  split
  · exact h
  · exact List.mem_append_left _ h

theorem analyzeCoreL3_ret (i : Instruction) (du : DU) (hm : i.mnemonic = "RET") :
    analyzeCoreL3 i du =
      some { du with uses := addNew (addNew du.uses "ESP") "[ESP]",
                     defs := addNew du.defs "ESP" } := by
  unfold analyzeCoreL3
  rw [hm]
  rfl

theorem analyzeCoreL4_ret (i : Instruction) (du : DU) (hm : i.mnemonic = "RET") :
    analyzeCoreL4 i du =
      some { du with uses := addNew du.uses "ESP",
                     defs := addNew du.defs "ESP" } := by
  unfold analyzeCoreL4
  rw [hm]
  rfl

theorem lookupA_updateA {α β : Type} [DecidableEq α] (l : List (α × β)) (k : α) (v : β) :
    lookupA (updateA l k v) k = some v := by
  induction l with
  | nil => simp [updateA, lookupA]
  | cons p rest ih =>
      by_cases h : k = p.1
      · cases p
        simp_all [updateA, lookupA]
      · cases p
        simp_all [updateA, lookupA]

/-- A one-PUSH one-RET path, addresses as full Ghidra address text. -/
def p5path : List PathElem :=
  [PathElem.start, PathElem.ins "00401001" (pushReg "EAX"),
   PathElem.ins "00401002" retInstr]

/-- C5 counterexample: in `Lab4_networkx.py` the uses computed for a RET are
`["ESP"]` only — the memory cell `[ESP]` is absent — and
`compute_data_dependencies` records the empty dependency list for the RET
even though the preceding PUSH at address 00401001 defined `ESP`, instead of
resolving the uses like any other instruction. -/
theorem ret_uses_lab4_missing_stack_cell :
    analyze_instruction_L4 retInstr = some ("D: ESP U: ESP", ["ESP"], ["ESP"]) ∧
    "[ESP]" ∉ (["ESP"] : List String) ∧
    compute_data_dependencies [p5path] iduL4 =
      [(("00401001", pushReg "EAX"),
        { defL := ["ESP", "[ESP]"], useL := ["EAX", "ESP"], DD := ["START"] }),
       (("00401002", retInstr),
        { defL := ["ESP"], useL := ["ESP"], DD := [] })] :=
  ⟨rfl, by decide, rfl⟩

/-- C5 amended: every RET's defs contain `ESP` in both variants; in
`Lab3_Plugin.py` the uses contain both `ESP` and `[ESP]` and the collect loop
feeds the RET through `processDataDep` exactly like any other recognized
instruction, while in `Lab4_networkx.py` the uses of a bare RET are `["ESP"]`
only and `compute_data_dependencies` replaces a RET's dependency list with
the empty list, neither consulting nor updating the tracker state. -/
theorem ret_semantics_amended :
    (∀ (i : Instruction) l d u, i.mnemonic = "RET" →
      analyze_instruction_L3 i = some (l, d, u) →
      "ESP" ∈ d ∧ "ESP" ∈ u ∧ "[ESP]" ∈ u) ∧
    (∀ (i : Instruction) l d u, i.mnemonic = "RET" →
      analyze_instruction_L4 i = some (l, d, u) →
      "ESP" ∈ d ∧ "ESP" ∈ u) ∧
    (∀ (i : Instruction), i.mnemonic = "RET" → i.operands = [] →
      analyze_instruction_L4 i = some ("D: ESP U: ESP", ["ESP"], ["ESP"])) ∧
    (∀ (addr : String) (i : Instruction) l d u, analyze_instruction_L3 i = some (l, d, u) →
      lab3_collect [(addr, i)] =
        Except.ok [(addr, (processDataDep Storage.empty u d addr).1)]) ∧
    (∀ (st : Storage × List ((String × Instruction) × DepEntry)) (addr : String)
       (i : Instruction), i.mnemonic = "RET" →
      (computeStep iduL4 st (PathElem.ins addr i)).1 = st.1 ∧
      (lookupA st.2 (addr, i) = none →
        ∃ e, lookupA (computeStep iduL4 st (PathElem.ins addr i)).2 (addr, i) = some e ∧
          e.DD = [])) := by
  refine ⟨?_, ?_, ?_, ?_, ?_⟩
  · intro i l d u hm h
    unfold analyze_instruction_L3 at h
    rw [analyzeCoreL3_ret i _ hm] at h
    simp only [Option.map_some', Option.some.injEq, Prod.mk.injEq] at h
    obtain ⟨-, hd, hu⟩ := h
    refine ⟨hd ▸ addNew_self_mem _ _, ?_, hu ▸ addNew_self_mem _ _⟩
    exact hu ▸ addNew_mem_mono _ (addNew_self_mem _ _)
  · intro i l d u hm h
    unfold analyze_instruction_L4 at h
    rw [analyzeCoreL4_ret i _ hm] at h
    simp only [Option.map_some', Option.some.injEq, Prod.mk.injEq] at h
    obtain ⟨-, hd, hu⟩ := h
    exact ⟨hd ▸ addNew_self_mem _ _, hu ▸ addNew_self_mem _ _⟩
  · intro i hm hop
    cases i
    simp only at hm hop
    subst hm; subst hop
    rfl
  · intro addr i l d u h
    unfold lab3_collect
    simp [h]
    rfl
  · intro st addr i hm
    simp only [computeStep, hm, beq_self_eq_true, if_true]
    constructor
    · trivial
    · intro hnone
      rw [hnone]
      exact ⟨_, lookupA_updateA _ _ _, rfl⟩

/-- Witness for `ret_semantics_amended` at the bare RET instruction. -/
theorem ret_semantics_amended_witness :
    ("ESP" ∈ (["ESP"] : List String) ∧ "ESP" ∈ (["ESP", "[ESP]"] : List String) ∧
      "[ESP]" ∈ (["ESP", "[ESP]"] : List String)) ∧
    analyze_instruction_L4 retInstr = some ("D: ESP U: ESP", ["ESP"], ["ESP"]) ∧
    lab3_collect [("9", retInstr)] =
      Except.ok [("9", (processDataDep Storage.empty ["ESP", "[ESP]"] ["ESP"] "9").1)] ∧
    (computeStep iduL4 (Storage.empty, []) (PathElem.ins "9" retInstr)).1 = Storage.empty ∧
    ∃ e, lookupA (computeStep iduL4 (Storage.empty, []) (PathElem.ins "9" retInstr)).2
          ("9", retInstr) = some e ∧ e.DD = [] :=
  ⟨ret_semantics_amended.1 retInstr "D: ESP U: ESP, [ESP]" ["ESP"] ["ESP", "[ESP]"] rfl (by exact rfl),
   ret_semantics_amended.2.2.1 retInstr rfl rfl,
   ret_semantics_amended.2.2.2.1 "9" retInstr "D: ESP U: ESP, [ESP]" ["ESP"] ["ESP", "[ESP]"] (by exact rfl),
   (ret_semantics_amended.2.2.2.2 (Storage.empty, []) "9" retInstr rfl).1,
   (ret_semantics_amended.2.2.2.2 (Storage.empty, []) "9" retInstr rfl).2 rfl⟩

/-- The three bracket-bookkeeping statements at the top of the
`for element in refListing` loop body (shared verbatim by both files): they
update `thisDynamic`, `isPart` and `eor` and never touch `defs`/`uses`.
Named here so the loop body can be reasoned about in stages;
`memStepL4_eq`/`memStepL3_eq` prove the decomposition definitional. -/
def memScanBrackets (st : MemScan) (element : Token) : MemScan :=
  let st := if st.isPart then { st with thisDynamic := st.thisDynamic ++ element.toStr } else st
  let st := if element.eqStr "[" then { st with isPart := true, thisDynamic := st.thisDynamic ++ "[" } else st
  if element.eqStr "]" then { st with isPart := false, eor := true } else st

/-- The `isinstance(element, Register)` block of the loop body in
`Lab4_networkx.py`: a register token is appended to `uses` under `isRead`
and again under `isWrite`. -/
def memScanRegL4 (rt : RefType) (st : MemScan) (element : Token) : MemScan :=
  if element.isReg then
    let st := { st with isInstance := true }
    let st := if rt.isRead then { st with isRead := true, du := { st.du with uses := addNew st.du.uses element.toStr } } else st
    let st := if rt.isWrite then { st with isWrite := true, du := { st.du with uses := addNew st.du.uses element.toStr } } else st
    st
  else st

/-- The `isinstance(element, Register)` block of the loop body in
`Lab3_Plugin.py`: under `isWrite` the register token goes to `defs`. -/
def memScanRegL3 (rt : RefType) (st : MemScan) (element : Token) : MemScan :=
  if element.isReg then
    let st := { st with isInstance := true }
    let st := if rt.isRead then { st with isRead := true, du := { st.du with uses := addNew st.du.uses element.toStr } } else st
    let st := if rt.isWrite then { st with isWrite := true, du := { st.du with defs := addNew st.du.defs element.toStr } } else st
    st
  else st

/-- The `if isInstance and eor` block closing the loop body (shared verbatim
by both files): once a register token and the closing bracket have been
observed, the accumulated bracket text joins `uses`/`defs` per the operand's
read/write flags. -/
def memScanKey (st : MemScan) : MemScan :=
  if st.isInstance && st.eor then
    let st := if !(st.thisDynamic ∈ st.du.uses) && st.isRead then { st with du := { st.du with uses := st.du.uses ++ [st.thisDynamic] } } else st
    if !(st.thisDynamic ∈ st.du.defs) && st.isWrite then { st with du := { st.du with defs := st.du.defs ++ [st.thisDynamic] } } else st
  else st

/-- The memory-cell-key guarantee the scan state maintains after every loop
iteration: whenever a register token and the closing bracket have both been
observed, the accumulated bracketed expression is among the uses if the
operand is read and among the defs if it is written. -/
def KeyInv (st : MemScan) : Prop :=
  (st.isInstance && st.eor) = true →
    (st.isRead = true → st.thisDynamic ∈ st.du.uses) ∧
    (st.isWrite = true → st.thisDynamic ∈ st.du.defs)

theorem memStepL4_eq (rt : RefType) (st : MemScan) (t : Token) :
    memStepL4 rt st t = memScanKey (memScanRegL4 rt (memScanBrackets st t) t) := rfl

theorem memStepL3_eq (rt : RefType) (st : MemScan) (t : Token) :
    memStepL3 rt st t = memScanKey (memScanRegL3 rt (memScanBrackets st t) t) := rfl

theorem memScanBrackets_fields (st : MemScan) (t : Token) :
    (memScanBrackets st t).du = st.du ∧ (memScanBrackets st t).isRead = st.isRead ∧
    (memScanBrackets st t).isWrite = st.isWrite ∧
    (memScanBrackets st t).isInstance = st.isInstance := by
  unfold memScanBrackets
  dsimp only
  repeat' split
  all_goals exact ⟨rfl, rfl, rfl, rfl⟩

theorem memScanRegL4_uses_mono (rt : RefType) (st : MemScan) (t : Token) {x : String}
    (h : x ∈ st.du.uses) : x ∈ (memScanRegL4 rt st t).du.uses := by
  unfold memScanRegL4
  dsimp only
  repeat' split
  all_goals first
    | exact h
    | exact addNew_mem_mono _ h
    | exact addNew_mem_mono _ (addNew_mem_mono _ h)

theorem memScanRegL4_reg_use (rt : RefType) (st : MemScan) (t : Token)
    (ht : t.isReg = true) (hrw : rt.isRead = true ∨ rt.isWrite = true) :
    t.toStr ∈ (memScanRegL4 rt st t).du.uses := by
  unfold memScanRegL4
  dsimp only
  repeat' split
  all_goals first
    | exact addNew_self_mem _ _
    | exact addNew_mem_mono _ (addNew_self_mem _ _)
    | simp_all

theorem memScanRegL3_uses_mono (rt : RefType) (st : MemScan) (t : Token) {x : String}
    (h : x ∈ st.du.uses) : x ∈ (memScanRegL3 rt st t).du.uses := by
  unfold memScanRegL3
  dsimp only
  repeat' split
  all_goals first
    | exact h
    | exact addNew_mem_mono _ h

theorem memScanRegL3_defs_mono (rt : RefType) (st : MemScan) (t : Token) {x : String}
    (h : x ∈ st.du.defs) : x ∈ (memScanRegL3 rt st t).du.defs := by
  unfold memScanRegL3
  dsimp only
  repeat' split
  all_goals first
    | exact h
    | exact addNew_mem_mono _ h

theorem memScanRegL3_reg_use (rt : RefType) (st : MemScan) (t : Token)
    (ht : t.isReg = true) (hr : rt.isRead = true) :
    t.toStr ∈ (memScanRegL3 rt st t).du.uses := by
  unfold memScanRegL3
  dsimp only
  repeat' split
  all_goals exact addNew_self_mem _ _

theorem memScanRegL3_reg_def (rt : RefType) (st : MemScan) (t : Token)
    (ht : t.isReg = true) (hw : rt.isWrite = true) :
    t.toStr ∈ (memScanRegL3 rt st t).du.defs := by
  unfold memScanRegL3
  dsimp only
  repeat' split
  all_goals exact addNew_self_mem _ _

theorem memScanRegL3_readfalse (rt : RefType) (st : MemScan) (t : Token)
    (hr : rt.isRead = false) :
    (memScanRegL3 rt st t).du.uses = st.du.uses ∧
    (memScanRegL3 rt st t).isRead = st.isRead := by
  unfold memScanRegL3
  dsimp only
  repeat' split
  all_goals simp_all

theorem memScanKey_uses_mono (st : MemScan) {x : String}
    (h : x ∈ st.du.uses) : x ∈ (memScanKey st).du.uses := by
  unfold memScanKey
  dsimp only
  repeat' split
  all_goals first
    | exact h
    | exact List.mem_append_left _ h

theorem memScanKey_defs_mono (st : MemScan) {x : String}
    (h : x ∈ st.du.defs) : x ∈ (memScanKey st).du.defs := by
  unfold memScanKey
  dsimp only
  repeat' split
  all_goals first
    | exact h
    | exact List.mem_append_left _ h

theorem memScanKey_fields (st : MemScan) :
    (memScanKey st).thisDynamic = st.thisDynamic ∧
    (memScanKey st).isInstance = st.isInstance ∧
    (memScanKey st).eor = st.eor ∧
    (memScanKey st).isRead = st.isRead ∧
    (memScanKey st).isWrite = st.isWrite := by
  unfold memScanKey
  dsimp only
  repeat' split
  all_goals exact ⟨rfl, rfl, rfl, rfl, rfl⟩

theorem memScanKey_key (st : MemScan) : KeyInv (memScanKey st) := by
  unfold KeyInv memScanKey
  dsimp only
  repeat' split
  all_goals intro hie
  all_goals constructor
  all_goals intro hflag
  all_goals simp_all

theorem memScanKey_readfalse (st : MemScan) (hr : st.isRead = false) :
    (memScanKey st).du.uses = st.du.uses := by
  unfold memScanKey
  dsimp only
  repeat' split
  all_goals simp_all

theorem memScanFoldL4_uses_mono (rt : RefType) {x : String} :
    ∀ (toks : List Token) (st : MemScan), x ∈ st.du.uses →
      x ∈ (toks.foldl (memStepL4 rt) st).du.uses := by
  intro toks
  induction toks with
  | nil => intro st h; simpa using h
  | cons t rest ih =>
      intro st h
      rw [List.foldl_cons]
      refine ih _ ?_
      rw [memStepL4_eq]
      exact memScanKey_uses_mono _ (memScanRegL4_uses_mono _ _ _
        (((memScanBrackets_fields st t).1).symm ▸ h))

theorem memScanFoldL4_reg (rt : RefType) (hrw : rt.isRead = true ∨ rt.isWrite = true) :
    ∀ (toks : List Token) (st : MemScan) (t : Token), t ∈ toks → t.isReg = true →
      t.toStr ∈ (toks.foldl (memStepL4 rt) st).du.uses := by
  intro toks
  induction toks with
  | nil => intro st t ht; cases ht
  | cons u rest ih =>
      intro st t htm hreg
      rw [List.foldl_cons]
      rcases List.mem_cons.mp htm with h | h
      · subst h
        apply memScanFoldL4_uses_mono
        rw [memStepL4_eq]
        exact memScanKey_uses_mono _ (memScanRegL4_reg_use _ _ _ hreg hrw)
      · exact ih _ t h hreg

theorem memScanFoldL3_uses_mono (rt : RefType) {x : String} :
    ∀ (toks : List Token) (st : MemScan), x ∈ st.du.uses →
      x ∈ (toks.foldl (memStepL3 rt) st).du.uses := by
  intro toks
  induction toks with
  | nil => intro st h; simpa using h
  | cons t rest ih =>
      intro st h
      rw [List.foldl_cons]
      refine ih _ ?_
      rw [memStepL3_eq]
      exact memScanKey_uses_mono _ (memScanRegL3_uses_mono _ _ _
        (((memScanBrackets_fields st t).1).symm ▸ h))

theorem memScanFoldL3_defs_mono (rt : RefType) {x : String} :
    ∀ (toks : List Token) (st : MemScan), x ∈ st.du.defs →
      x ∈ (toks.foldl (memStepL3 rt) st).du.defs := by
  intro toks
  induction toks with
  | nil => intro st h; simpa using h
  | cons t rest ih =>
      intro st h
      rw [List.foldl_cons]
      refine ih _ ?_
      rw [memStepL3_eq]
      exact memScanKey_defs_mono _ (memScanRegL3_defs_mono _ _ _
        (((memScanBrackets_fields st t).1).symm ▸ h))

theorem memScanFoldL3_reg_use (rt : RefType) (hr : rt.isRead = true) :
    ∀ (toks : List Token) (st : MemScan) (t : Token), t ∈ toks → t.isReg = true →
      t.toStr ∈ (toks.foldl (memStepL3 rt) st).du.uses := by
  intro toks
  induction toks with
  | nil => intro st t ht; cases ht
  | cons u rest ih =>
      intro st t htm hreg
      rw [List.foldl_cons]
      rcases List.mem_cons.mp htm with h | h
      · subst h
        apply memScanFoldL3_uses_mono
        rw [memStepL3_eq]
        exact memScanKey_uses_mono _ (memScanRegL3_reg_use _ _ _ hreg hr)
      · exact ih _ t h hreg

theorem memScanFoldL3_reg_def (rt : RefType) (hw : rt.isWrite = true) :
    ∀ (toks : List Token) (st : MemScan) (t : Token), t ∈ toks → t.isReg = true →
      t.toStr ∈ (toks.foldl (memStepL3 rt) st).du.defs := by
  intro toks
  induction toks with
  | nil => intro st t ht; cases ht
  | cons u rest ih =>
      intro st t htm hreg
      rw [List.foldl_cons]
      rcases List.mem_cons.mp htm with h | h
      · subst h
        apply memScanFoldL3_defs_mono
        rw [memStepL3_eq]
        exact memScanKey_defs_mono _ (memScanRegL3_reg_def _ _ _ hreg hw)
      · exact ih _ t h hreg

theorem memScanFoldL3_readfalse (rt : RefType) (hr : rt.isRead = false) :
    ∀ (toks : List Token) (st : MemScan), st.isRead = false →
      (toks.foldl (memStepL3 rt) st).du.uses = st.du.uses ∧
      (toks.foldl (memStepL3 rt) st).isRead = false := by
  intro toks
  induction toks with
  | nil => intro st h; exact ⟨rfl, h⟩
  | cons t rest ih =>
      intro st h
      rw [List.foldl_cons]
      have hb := memScanBrackets_fields st t
      have hreg := memScanRegL3_readfalse rt (memScanBrackets st t) t hr
      have hkeyRead := (memScanKey_fields (memScanRegL3 rt (memScanBrackets st t) t)).2.2.2.1
      have hRead3 : (memStepL3 rt st t).isRead = false := by
        rw [memStepL3_eq, hkeyRead, hreg.2, hb.2.1, h]
      have hUses3 : (memStepL3 rt st t).du.uses = st.du.uses := by
        rw [memStepL3_eq]
        have hkeyIn : (memScanRegL3 rt (memScanBrackets st t) t).isRead = false := by
          rw [hreg.2, hb.2.1, h]
        rw [memScanKey_readfalse _ hkeyIn, hreg.1]
        exact congrArg DU.uses hb.1
      obtain ⟨h1, h2⟩ := ih (memStepL3 rt st t) hRead3
      exact ⟨by rw [h1, hUses3], h2⟩

theorem memScanFold_keyinv_L4 (rt : RefType) :
    ∀ (toks : List Token) (st : MemScan), KeyInv st →
      KeyInv (toks.foldl (memStepL4 rt) st) := by
  intro toks
  induction toks with
  | nil => intro st h; simpa using h
  | cons t rest ih =>
      intro st _
      rw [List.foldl_cons]
      refine ih _ ?_
      rw [memStepL4_eq]
      exact memScanKey_key _

theorem memScanFold_keyinv_L3 (rt : RefType) :
    ∀ (toks : List Token) (st : MemScan), KeyInv st →
      KeyInv (toks.foldl (memStepL3 rt) st) := by
  intro toks
  induction toks with
  | nil => intro st h; simpa using h
  | cons t rest ih =>
      intro st _
      rw [List.foldl_cons]
      refine ih _ ?_
      rw [memStepL3_eq]
      exact memScanKey_key _

theorem keyinv_init (du : DU) : KeyInv (MemScan.init du) := by
  intro h
  simp [MemScan.init] at h

/-- C6 counterexample: for the written memory operand of `MOV [EAX], 0x5`,
`Lab3_Plugin.py`'s `operandRegisterHelper` puts the address-computation
register `EAX` into `defs` — the computed uses are empty — contradicting the
claim that bracket registers are always added as uses. -/
theorem mem_write_regs_not_uses_lab3 :
    operandRegisterHelperL3 (movMemImm "EAX" "0x5") { defs := [], uses := [] } =
      { defs := ["EAX", "[EAX]"], uses := [] } ∧
    analyze_instruction_L3 (movMemImm "EAX" "0x5") =
      some ("D: EAX, [EAX] U: ", ["EAX", "[EAX]"], []) ∧
    "EAX" ∉ ([] : List String) :=
  ⟨rfl, rfl, by decide⟩

/-- C6 amended: for every register-indexed memory operand, over its whole
token stream, `Lab4_networkx.py` adds every register token's name to uses
whenever the operand is read or written; in both variants, whenever a
register token and the closing bracket have both been observed, the
accumulated bracketed expression is among the uses if the operand is read
and among the defs if it is written (the `KeyInv` conjuncts); and
`Lab3_Plugin.py` adds every register token of a read operand to uses but
every register token of a written operand to defs — for a write-only
operand it adds nothing to uses at all.  The last conjunct ties the scans
to `operandRegisterHelper` for a single-memory-operand instruction. -/
theorem mem_operand_decomposition_amended :
    (∀ (rt : RefType) (du : DU) (toks : List Token) (t : Token),
      t ∈ toks → t.isReg = true → rt.isRead = true ∨ rt.isWrite = true →
      t.toStr ∈ (memScanL4 rt du toks).uses) ∧
    (∀ (rt : RefType) (du : DU) (toks : List Token) (t : Token),
      t ∈ toks → t.isReg = true → rt.isRead = true →
      t.toStr ∈ (memScanL3 rt du toks).uses) ∧
    (∀ (rt : RefType) (du : DU) (toks : List Token) (t : Token),
      t ∈ toks → t.isReg = true → rt.isWrite = true →
      t.toStr ∈ (memScanL3 rt du toks).defs) ∧
    (∀ (rt : RefType) (du : DU) (toks : List Token),
      rt.isRead = false → (memScanL3 rt du toks).uses = du.uses) ∧
    (∀ (rt : RefType) (du : DU) (toks : List Token),
      KeyInv (toks.foldl (memStepL4 rt) (MemScan.init du))) ∧
    (∀ (rt : RefType) (du : DU) (toks : List Token),
      KeyInv (toks.foldl (memStepL3 rt) (MemScan.init du))) ∧
    (∀ (rt : RefType) (du : DU) (toks : List Token) (m rep : String),
      operandRegisterHelperL4
          { mnemonic := m,
            operands := [{ register := none, refType := rt, repList := toks,
                           representation := rep }] } du = memScanL4 rt du toks ∧
      operandRegisterHelperL3
          { mnemonic := m,
            operands := [{ register := none, refType := rt, repList := toks,
                           representation := rep }] } du = memScanL3 rt du toks) := by
  refine ⟨?_, ?_, ?_, ?_, ?_, ?_, ?_⟩
  · intro rt du toks t htm hreg hrw
    exact memScanFoldL4_reg rt hrw toks (MemScan.init du) t htm hreg
  · intro rt du toks t htm hreg hr
    exact memScanFoldL3_reg_use rt hr toks (MemScan.init du) t htm hreg
  · intro rt du toks t htm hreg hw
    exact memScanFoldL3_reg_def rt hw toks (MemScan.init du) t htm hreg
  · intro rt du toks hr
    exact (memScanFoldL3_readfalse rt hr toks (MemScan.init du) rfl).1
  · intro rt du toks
    exact memScanFold_keyinv_L4 rt toks (MemScan.init du) (keyinv_init du)
  · intro rt du toks
    exact memScanFold_keyinv_L3 rt toks (MemScan.init du) (keyinv_init du)
  · intro rt du toks m rep
    exact ⟨rfl, rfl⟩

/-- The token stream of the two-register operand `[EAX + ECX*0x4]`. -/
def toksIdx : List Token :=
  [Token.strTok "[", Token.regTok "EAX", Token.strTok " + ", Token.regTok "ECX",
   Token.strTok "*", Token.strTok "0x4", Token.strTok "]"]

/-- The token stream of the displacement operand `[EBP + -0x4]`. -/
def toksDisp : List Token :=
  [Token.strTok "[", Token.regTok "EBP", Token.strTok " + ", Token.strTok "-0x4",
   Token.strTok "]"]

/-- A write-only operand reference type. -/
def wrOnly : RefType :=
  { isRead := false, isWrite := true, isConditional := false, isFlow := false }

/-- A read-only operand reference type. -/
def rdOnly : RefType :=
  { isRead := true, isWrite := false, isConditional := false, isFlow := false }

/-- Witness for `mem_operand_decomposition_amended` on the two-register
operand `[EAX + ECX*0x4]` (written) and the displacement operand
`[EBP + -0x4]` (read): the second index register is a Lab4 use even for a
pure write, the displacement register is a use in both variants, Lab3 sends
the written operand's registers to defs and leaves its uses empty, and the
accumulated memory key of the written operand reaches the Lab4 defs. -/
theorem mem_operand_decomposition_amended_witness :
    "ECX" ∈ (memScanL4 wrOnly { defs := [], uses := [] } toksIdx).uses ∧
    "EBP" ∈ (memScanL3 rdOnly { defs := [], uses := [] } toksDisp).uses ∧
    "ECX" ∈ (memScanL3 wrOnly { defs := [], uses := [] } toksIdx).defs ∧
    (memScanL3 wrOnly { defs := [], uses := [] } toksIdx).uses = [] ∧
    "[EAX + ECX*0x4]" ∈ (memScanL4 wrOnly { defs := [], uses := [] } toksIdx).defs :=
  ⟨mem_operand_decomposition_amended.1 wrOnly { defs := [], uses := [] } toksIdx
      (Token.regTok "ECX") (by decide) rfl (Or.inr rfl),
   mem_operand_decomposition_amended.2.1 rdOnly { defs := [], uses := [] } toksDisp
      (Token.regTok "EBP") (by decide) rfl rfl,
   mem_operand_decomposition_amended.2.2.1 wrOnly { defs := [], uses := [] } toksIdx
      (Token.regTok "ECX") (by decide) rfl rfl,
   mem_operand_decomposition_amended.2.2.2.1 wrOnly { defs := [], uses := [] } toksIdx rfl,
   (mem_operand_decomposition_amended.2.2.2.2.1 wrOnly { defs := [], uses := [] } toksIdx
      (by exact rfl)).2 (by exact rfl)⟩

/-- `MOV EBX,1; MOV EAX,2; ADD EAX,EBX` at addresses 1..3: the ADD's uses are
`[EAX, EBX]`, so its dependency list comes out in that resolution order. -/
def ex7prog : List (String × Instruction) :=
  [("1", movRegImm "EBX" "0x1"),
   ("2", movRegImm "EAX" "0x2"),
   ("3", addRegReg "EAX" "EBX")]

/-- The dependency map the pipeline computes for `ex7prog`. -/
def deps7 : String → Option (List String) :=
  fun a => if a = "1" then some [] else if a = "2" then some []
           else if a = "3" then some ["2", "1"] else none

/-- C7 counterexample: the pipeline stores the dependency list of address 3
as `["2", "1"]` (resolution order of uses `EAX`, `EBX`), and
`create_dot_graph_DD` renders that node's label as `0x3; DD: 0x2, 0x1` —
`"0x2"` precedes `"0x1"`, so the rendered dependency-source list is not
sorted. -/
theorem dd_label_unsorted :
    lab3_collect ex7prog = Except.ok [("1", []), ("2", []), ("3", ["2", "1"])] ∧
    lab3NodeLine 3 "3" (some ["2", "1"]) =
      "    n3 [label = \"0x3; DD: 0x2, 0x1\"];\n" ∧
    (["2", "1"].map ddRender) = ["0x2", "0x1"] ∧
    pyStrLe "0x2" "0x1" = false ∧
    create_dot_graph_DD "00401000" ["1", "2", "3"] deps7 =
      "digraph \"0x401000\" \x7b\n    n0 [label = \"START\"];\n    n1 [label = \"0x1; DD: \"];\n    n2 [label = \"0x2; DD: \"];\n    n3 [label = \"0x3; DD: 0x2, 0x1\"];\n\n    n3 -> n2;\n    n3 -> n1;\n\x7d" :=
  ⟨rfl, rfl, rfl, rfl, rfl⟩

theorem lab3NodesLoop_go (deps : String → Option (List String)) (lst : List String) :
    ∀ st : L3EmitState, st.addrToNode ≠ [] →
      (lst.foldl (lab3NodeStep deps) st).text =
        (lst.mapIdx fun i a => lab3NodeLine (st.counter + i) a (deps a)).foldl
          (fun acc x => acc ++ x) st.text := by
  induction lst with
  | nil => intro st _; simp
  | cons a rest ih =>
      intro st hne
      have hstep : lab3NodeStep deps st a =
          { text := st.text ++ lab3NodeLine st.counter a (deps a),
            addrToNode := st.addrToNode ++ [(a, "n" ++ toString st.counter)],
            counter := st.counter + 1 } := by
        unfold lab3NodeStep
        have : st.addrToNode.isEmpty = false := by
          cases h : st.addrToNode with
          | nil => exact absurd h hne
          | cons p l => rfl
        rw [this]
        rfl
      rw [List.foldl_cons, hstep, ih _ (by simp)]
      have harg : (fun i a => lab3NodeLine (st.counter + 1 + i) a (deps a)) =
          (fun i a => lab3NodeLine (st.counter + (i + 1)) a (deps a)) := by
        funext i a
        congr 1
        omega
      rw [List.mapIdx_cons]
      simp only [List.foldl_cons, Nat.add_zero, harg]

theorem lab4NodesLoop_go (ad : List ((String × Instruction) × DepEntry)) (lst : List String) :
    ∀ st : L4EmitState,
      (lst.foldl (lab4NodeStep ad) st).text =
        (lst.mapIdx fun i a => lab4NodeText (st.counter + i) a ad).foldl
          (fun acc x => acc ++ x) st.text := by
  induction lst with
  | nil => intro st; simp
  | cons a rest ih =>
      intro st
      rw [List.foldl_cons]
      show (rest.foldl (lab4NodeStep ad) (lab4NodeStep ad st a)).text = _
      rw [ih]
      have harg : (fun i a => lab4NodeText (st.counter + 1 + i) a ad) =
          (fun i a => lab4NodeText (st.counter + (i + 1)) a ad) := by
        funext i a
        congr 1
        omega
      rw [List.mapIdx_cons]
      simp only [List.foldl_cons, Nat.add_zero]
      rw [show (lab4NodeStep ad st a).counter = st.counter + 1 from rfl,
          show (lab4NodeStep ad st a).text = st.text ++ lab4NodeText st.counter a ad from rfl,
          harg]

theorem dropWhile_zero_head {c : Char} :
    ∀ l : List Char, (l.dropWhile (· = '0')).head? = some c → c ≠ '0' := by
  intro l
  induction l with
  | nil => intro h; cases h
  | cons d rest ih =>
      intro h
      by_cases hd : d = '0'
      · rw [List.dropWhile_cons, if_pos (by simp [hd])] at h
        exact ih h
      · rw [List.dropWhile_cons, if_neg (by simp [hd])] at h
        simp only [List.head?_cons, Option.some.injEq] at h
        exact h ▸ hd

/-- C7 amended: both dependency-graph emitters number nodes `n1, n2, ...` in
instruction-list order (ascending address, since `collect_instructions`
sorts the list) and render each node's dependency-source list in its stored
resolution order rather than sorted; `generate_DD_dot_graph` strips all
leading zeros from rendered addresses (the first character left is never
`0`), while `create_dot_graph_DD` prints the address text it is given. -/
theorem dd_emitter_order_amended :
    (∀ (lst : List String) (deps : String → Option (List String)),
      (lab3NodesLoop lst deps).text =
        (lst.mapIdx fun i a => lab3NodeLine (1 + i) a (deps a)).foldl
          (fun acc x => acc ++ x)
          (if lst.isEmpty then "" else "    n0 [label = \"START\"];\n")) ∧
    (∀ (lst : List String) (ad : List ((String × Instruction) × DepEntry)),
      (lst.foldl (lab4NodeStep ad)
          { text := "", addrToNode := [("START", "n0")], counter := 1, edges := [] }).text =
        (lst.mapIdx fun i a => lab4NodeText (1 + i) a ad).foldl
          (fun acc x => acc ++ x) "") ∧
    (∀ (s : String) (c : Char), (lstrip0 s).data.head? = some c → c ≠ '0') := by
  refine ⟨?_, ?_, ?_⟩
  · intro lst deps
    cases lst with
    | nil => rfl
    | cons a rest =>
        show (rest.foldl (lab3NodeStep deps)
            (lab3NodeStep deps { text := "", addrToNode := [], counter := 1 } a)).text = _
        have hstep : lab3NodeStep deps { text := "", addrToNode := [], counter := 1 } a =
            { text := "    n0 [label = \"START\"];\n" ++ lab3NodeLine 1 a (deps a),
              addrToNode := [("START", "n0"), (a, "n1")],
              counter := 2 } := rfl
        rw [hstep, lab3NodesLoop_go deps rest _ (by simp)]
        have harg : (fun i a => lab3NodeLine (2 + i) a (deps a)) =
            (fun i a => lab3NodeLine (1 + (i + 1)) a (deps a)) := by
          funext i a
          congr 1
          omega
        rw [List.mapIdx_cons]
        simp only [List.foldl_cons, Nat.add_zero, harg, List.isEmpty_cons,
          Bool.false_eq_true, if_false]
  · intro lst ad
    rw [lab4NodesLoop_go]
  · intro s c h
    exact dropWhile_zero_head s.data h

/-- Witness for `dd_emitter_order_amended`: the leading-zero-stripping claim
applied at the address text `00401078`, whose stripped head is `4`. -/
theorem dd_emitter_order_amended_witness :
    (lab3NodesLoop ["5"] (fun _ => some ["1"])).text =
      (["5"].mapIdx fun i a => lab3NodeLine (1 + i) a (some ["1"])).foldl
        (fun acc x => acc ++ x) "    n0 [label = \"START\"];\n" ∧
    ('4' : Char) ≠ '0' :=
  ⟨dd_emitter_order_amended.1 ["5"] (fun _ => some ["1"]),
   dd_emitter_order_amended.2.2 "00401078" '4' rfl⟩
